import Mathlib

/-!
Verification of the allocation and grid-consistency engine of the
TIMETABLE_APP repository (`src/app.py`) against its specification.

The Python core is shallowly embedded below.  Text is represented as
`List Char` (Python `str`), so that every definition is executable and
kernel-decidable; SQLAlchemy rows become plain structures; database
queries become the explicit lists of rows they return (the callers in
`app.py` always feed these functions id-ordered query results, which is
reflected in ordering hypotheses where a claim needs them).  Python
`None`-able foreign keys become `Option Nat`, and Python truthiness
tests on ids (`if session.assigned_teacher_id:`) are embedded by the
`truthy` predicate rather than simplified to `isSome`.
-/

namespace TimetableApp

/-- Shorthand turning a Lean string literal into the `List Char`
representation used for Python strings throughout this development. -/
def str (s : String) : List Char := s.data

/-- Splitting a character list at every separator matching `p`,
as Python `re.split` does: `"a,b," -> ["a","b",""]`, `"" -> [""]`. -/
def splitChars (p : Char → Bool) : List Char → List (List Char)
  | [] => [[]]
  | c :: rest =>
    let r := splitChars p rest
    if p c then [] :: r
    else
      match r with
      | [] => [[c]]
      | x :: xs => (c :: x) :: xs

/-- Python `str.strip()`: drop leading and trailing whitespace. -/
def trimChars (l : List Char) : List Char :=
  ((l.dropWhile Char.isWhitespace).reverse.dropWhile Char.isWhitespace).reverse

/-- Python `str.lower()` (the inputs of this application are ASCII). -/
def lowerChars (l : List Char) : List Char := l.map Char.toLower

/-- Python `sep.join(parts)`. -/
def joinSep (sep : List Char) : List (List Char) → List Char
  | [] => []
  | [x] => x
  | x :: xs => x ++ sep ++ joinSep sep xs

/-! ### Fixed grid vocabulary (`app.py` lines 27-52) -/

def WEEK_DAYS : List (List Char) :=
  [str "Monday", str "Tuesday", str "Wednesday", str "Thursday", str "Friday"]

def YEAR_GROUPS : List (List Char) :=
  [str "Grade 1", str "Grade 2", str "Grade 3", str "Grade 4", str "Grade 5"]

/-- `TIME_ROWS`: each row is a slot string paired with its `is_lunch` flag. -/
def TIME_ROWS : List (List Char × Bool) :=
  [(str "08:00-09:00", false), (str "09:00-10:00", false), (str "10:00-11:00", false),
   (str "11:00-12:00", false), (str "12:00-13:00", true), (str "13:00-14:00", false),
   (str "14:00-15:00", false)]

def TEACHING_SLOTS : List (List Char) :=
  (TIME_ROWS.filter (fun row => !row.2)).map Prod.fst

/-- `DAY_SHORT` dictionary; `app.py` only ever looks up the five week
days (a different key would raise `KeyError` there). -/
def DAY_SHORT (day : List Char) : List Char :=
  if day = str "Monday" then str "Mon"
  else if day = str "Tuesday" then str "Tue"
  else if day = str "Wednesday" then str "Wed"
  else if day = str "Thursday" then str "Thu"
  else if day = str "Friday" then str "Fri"
  else []

/-! ### Data model (`app.py` lines 91-123) -/

structure Skill where
  id : Nat
  name : List Char
deriving DecidableEq

structure Teacher where
  id : Nat
  name : List Char
  free_slots : List Char
  skills : List Skill
deriving DecidableEq

structure Session where
  id : Nat
  required_skill_id : Nat
  slot : List Char
  assigned_teacher_id : Option Nat
  day : List Char
  year_group : List Char
deriving DecidableEq

/-- Python truthiness of a nullable integer column
(`if session.assigned_teacher_id:`): `None` and `0` are falsy. -/
def truthy : Option Nat → Bool
  | none => false
  | some n => n ≠ 0

/-! ### Availability matcher (`app.py` lines 295-384) -/

/-- `normalize` (line 299): lower-case, strip, collapse whitespace runs. -/
def normalize (text : List Char) : List Char :=
  joinSep (str " ")
    ((splitChars Char.isWhitespace (lowerChars text)).filter (fun w => w ≠ []))

/-- `split_multi_value_field` (line 317): split on `|`/`;`/`,`, strip each
part, drop empties (an all-whitespace input yields `[]` early). -/
def split_multi_value_field (value : List Char) : List (List Char) :=
  if trimChars value = [] then []
  else
    ((splitChars (fun c => c = '|' ∨ c = ';' ∨ c = ',') value).map trimChars).filter
      (fun part => part ≠ [])

/-- `normalize_slot_csv` (line 303). -/
def normalize_slot_csv (text : List Char) : List Char :=
  joinSep (str ", ") (split_multi_value_field text)

/-- `default_free_slots` (line 355): every weekday short name combined
with every teaching slot, comma-joined. -/
def default_free_slots : List Char :=
  joinSep (str ", ")
    (WEEK_DAYS.flatMap (fun day => TEACHING_SLOTS.map (fun slot => DAY_SHORT day ++ str " " ++ slot)))

/-- `slot_aliases` (line 363): the six acceptable spellings of a
(day, slot) pair.  The leading-zero-stripped start time is combined with
the day names only on its own, never with the full `HH:MM-HH:MM` range. -/
def slot_aliases (day slot : List Char) : List (List Char) :=
  let start := (splitChars (fun c => c = '-') slot).headD []
  let short_start := if start.headD ' ' = '0' then start.drop 1 else start
  let day_norm := normalize day
  let day_short_norm := normalize (DAY_SHORT day)
  [normalize (day_norm ++ str " " ++ slot),
   normalize (day_short_norm ++ str " " ++ slot),
   normalize (day_norm ++ str " " ++ start),
   normalize (day_short_norm ++ str " " ++ start),
   normalize (day_norm ++ str " " ++ short_start),
   normalize (day_short_norm ++ str " " ++ short_start)]

/-- `teacher_slot_tokens` (line 378). -/
def teacher_slot_tokens (teacher : Teacher) : List (List Char) :=
  (split_multi_value_field teacher.free_slots).map normalize

/-- `teacher_is_available_for_slot` (line 382): some declared token
equals some alias. -/
def teacher_is_available_for_slot (tokens : List (List Char)) (day slot : List Char) : Bool :=
  tokens.any (fun token => token ∈ slot_aliases day slot)

/-! ### Grid index: deduplication and repair (`app.py` lines 138-173, 391-405)

`deduplicate_grid_sessions` receives the grid sessions in ascending id
order (`grid_sessions_query().order_by(Session.id.asc())`); the `rows`
argument below stands for that query result.  The Python function first
builds two indexes over the unmodified rows — `by_cell`, grouping every
row by (day, slot, year_group), and `by_teacher_slot`, grouping the rows
with a truthy `assigned_teacher_id` by (day, slot, teacher) — and then
(1) for each cell group keeps the first row, transplanting onto it the
first duplicate's teacher when the kept row has none, deleting the rest,
and (2) for each teacher-slot group clears `assigned_teacher_id` on all
but the first member.  The definitions below compute the resulting row
set directly from those two passes. -/

/-- The (day, slot, year_group) grid-cell key of a session. -/
def cellKey (s : Session) : List Char × List Char × List Char :=
  (s.day, s.slot, s.year_group)

/-- The `by_cell` group of key `k`, in row order. -/
def cellGroup (rows : List Session) (k : List Char × List Char × List Char) : List Session :=
  rows.filter (fun x => cellKey x = k)

/-- The `by_teacher_slot` group of key (day, slot, t), in row order.
Only rows with a truthy assigned teacher are indexed, hence the `t ≠ 0`
conjunct. -/
def teacherGroup (rows : List Session) (day slot : List Char) (t : Nat) : List Session :=
  rows.filter (fun x => x.assigned_teacher_id = some t ∧ t ≠ 0 ∧ x.day = day ∧ x.slot = slot)

/-- Teacher carried by a merged cell group: the kept row's teacher if
present, otherwise the first duplicate's (the cell-pass transplant). -/
def merged_teacher (group : List Session) : Option Nat :=
  group.findSome? (fun x => x.assigned_teacher_id)

/-- A row survives the cell pass iff it heads its cell group. -/
def dedupe_survivors (rows : List Session) : List Session :=
  rows.filter (fun s => (cellGroup rows (cellKey s)).head? = some s)

/-- Final assigned teacher of a surviving row after both passes: a row
kept with no teacher receives the transplanted one (which the teacher
pass never clears, because it was not indexed); a row kept with teacher
`t` keeps it iff it heads its teacher-slot group, and is cleared
otherwise.  A non-truthy `some 0` is never indexed, hence never cleared. -/
def dedupe_final_teacher (rows : List Session) (s : Session) : Option Nat :=
  match s.assigned_teacher_id with
  | none => merged_teacher (cellGroup rows (cellKey s))
  | some t =>
    if t = 0 then some t
    else if (teacherGroup rows s.day s.slot t).head? = some s then some t else none

structure DedupResult where
  sessions : List Session
  removed : Nat
  cleared : Nat
deriving DecidableEq

/-- `deduplicate_grid_sessions` (line 138): resulting grid state plus
the `removed` and `unassigned_conflicts` counters it logs. -/
def deduplicate_grid_sessions (rows : List Session) : DedupResult :=
  let survivors := dedupe_survivors rows
  { sessions := survivors.map (fun s => { s with assigned_teacher_id := dedupe_final_teacher rows s }),
    removed := rows.length - survivors.length,
    cleared := (rows.filter (fun s =>
      match s.assigned_teacher_id with
      | none => false
      | some t => decide (t ≠ 0) && !decide ((teacherGroup rows s.day s.slot t).head? = some s))).length }

structure GocResult where
  rows : List Session
  session : Session
  deduped : Nat
deriving DecidableEq

/-- `get_or_create_grid_cell_session` (line 391): `rows` is the full
session table in ascending id order; the function returns the updated
table, the canonical cell session, and the number of duplicates merged.
`fresh_id` is the id the database would hand a newly created row. -/
def get_or_create_grid_cell_session (rows : List Session) (day slot year_group : List Char)
    (required_skill_id : Nat) (fresh_id : Nat) : GocResult :=
  let found := cellGroup rows (day, slot, year_group)
  match found.head? with
  | none =>
    let created : Session :=
      { id := fresh_id, required_skill_id := required_skill_id, slot := slot,
        assigned_teacher_id := none, day := day, year_group := year_group }
    { rows := rows ++ [created], session := created, deduped := 0 }
  | some primary =>
    let merged := { primary with assigned_teacher_id := merged_teacher found }
    { rows := rows.filterMap (fun s =>
        if cellKey s = (day, slot, year_group) then
          if s = primary then some merged else none
        else some s),
      session := merged,
      deduped := found.length - 1 }

/-! ### Grid invariants (spec §3, I1/I2) -/

/-- I1: no two sessions share a (day, slot, year_group) cell. -/
def noCellDup (l : List Session) : Prop :=
  l.Pairwise (fun a b => cellKey a ≠ cellKey b)

/-- I2: no two sessions with a present assigned teacher share
(day, slot, assigned_teacher). -/
def noTeacherDup (l : List Session) : Prop :=
  l.Pairwise (fun a b =>
    ¬ (a.day = b.day ∧ a.slot = b.slot ∧ a.assigned_teacher_id = b.assigned_teacher_id ∧
        a.assigned_teacher_id ≠ none))

instance (l : List Session) : Decidable (noCellDup l) := by
  unfold noCellDup; infer_instance

instance (l : List Session) : Decidable (noTeacherDup l) := by
  unfold noTeacherDup; infer_instance

/-- The cell-merge pass performs no teacher transplant: every kept row
without a teacher heads a cell group in which no duplicate has one. -/
def NoTransplant (rows : List Session) : Prop :=
  ∀ s ∈ rows, (cellGroup rows (cellKey s)).head? = some s →
    s.assigned_teacher_id = none → merged_teacher (cellGroup rows (cellKey s)) = none

/-! ### Basic facts about the dedup passes -/

theorem mem_cellGroup {rows : List Session} {k : List Char × List Char × List Char}
    {s : Session} : s ∈ cellGroup rows k ↔ s ∈ rows ∧ cellKey s = k := by
  simp [cellGroup, List.mem_filter]

theorem mem_teacherGroup {rows : List Session} {day slot : List Char} {t : Nat} {s : Session} :
    s ∈ teacherGroup rows day slot t ↔
      s ∈ rows ∧ (s.assigned_teacher_id = some t ∧ t ≠ 0 ∧ s.day = day ∧ s.slot = slot) := by
  simp [teacherGroup, List.mem_filter]

theorem mem_dedupe_survivors {rows : List Session} {s : Session} :
    s ∈ dedupe_survivors rows ↔ s ∈ rows ∧ (cellGroup rows (cellKey s)).head? = some s := by
  simp [dedupe_survivors, List.mem_filter]

theorem list_map_self {α : Type} {f : α → α} {l : List α} (h : ∀ a ∈ l, f a = a) :
    l.map f = l := by
  induction l with
  | nil => rfl
  | cons a l ih =>
    rw [List.map_cons, h a (List.mem_cons_self a l),
      ih (fun x hx => h x (List.mem_cons_of_mem a hx))]

theorem list_filterMap_self {α : Type} {f : α → Option α} {l : List α}
    (h : ∀ a ∈ l, f a = some a) : l.filterMap f = l := by
  induction l with
  | nil => rfl
  | cons a l ih =>
    rw [List.filterMap_cons, h a (List.mem_cons_self a l),
      ih (fun x hx => h x (List.mem_cons_of_mem a hx))]

/-- On a grid satisfying I1, every cell group is the singleton of its
own member. -/
theorem cellGroup_eq_singleton {rows : List Session} (h : noCellDup rows) {s : Session}
    (hs : s ∈ rows) : cellGroup rows (cellKey s) = [s] := by
  induction rows with
  | nil => cases hs
  | cons a l ih =>
    rw [noCellDup, List.pairwise_cons] at h
    rcases List.mem_cons.mp hs with rfl | hs'
    · unfold cellGroup
      rw [List.filter_cons, if_pos (by simp)]
      have : l.filter (fun x => decide (cellKey x = cellKey s)) = [] := by
        rw [List.filter_eq_nil_iff]
        intro b hb
        simpa using fun hk => (h.1 b hb) hk.symm
      rw [this]
    · unfold cellGroup
      rw [List.filter_cons, if_neg (by simpa using h.1 s hs')]
      exact ih h.2 hs'

/-- On a grid satisfying I2, every indexed teacher-slot group is the
singleton of its own member. -/
theorem teacherGroup_eq_singleton {rows : List Session} (h : noTeacherDup rows) {s : Session}
    {t : Nat} (hs : s ∈ rows) (ht : s.assigned_teacher_id = some t) (h0 : t ≠ 0) :
    teacherGroup rows s.day s.slot t = [s] := by
  induction rows with
  | nil => cases hs
  | cons a l ih =>
    rw [noTeacherDup, List.pairwise_cons] at h
    rcases List.mem_cons.mp hs with rfl | hs'
    · unfold teacherGroup
      rw [List.filter_cons, if_pos (by simp [ht, h0])]
      have : l.filter (fun x => decide (x.assigned_teacher_id = some t ∧ t ≠ 0 ∧
          x.day = s.day ∧ x.slot = s.slot)) = [] := by
        rw [List.filter_eq_nil_iff]
        intro b hb
        simp only [decide_eq_true_eq, not_and]
        intro hbt _ hbd hbs
        exact absurd ⟨hbd.symm, hbs.symm, by rw [ht, hbt], by simp [ht]⟩ (h.1 b hb)
      rw [this]
    · unfold teacherGroup
      rw [List.filter_cons, if_neg ?_]
      · exact ih h.2 hs'
      · simp only [decide_eq_true_eq, not_and]
        intro hat _ had has
        exact absurd ⟨had, has, by rw [hat, ht], by simp [hat]⟩ (h.1 s hs')

/-- On a clean grid both repair passes leave a row's teacher unchanged. -/
theorem dedupe_final_teacher_clean {rows : List Session} (h1 : noCellDup rows)
    (h2 : noTeacherDup rows) {s : Session} (hs : s ∈ rows) :
    dedupe_final_teacher rows s = s.assigned_teacher_id := by
  cases ht : s.assigned_teacher_id with
  | none =>
    simp only [dedupe_final_teacher, ht]
    rw [cellGroup_eq_singleton h1 hs]
    simp [merged_teacher, ht]
  | some t =>
    by_cases h0 : t = 0
    · simp [dedupe_final_teacher, ht, h0]
    · have hsingle := teacherGroup_eq_singleton h2 hs ht h0
      simp [dedupe_final_teacher, ht, h0, hsingle]

/-! ### Claim C6: re-entrance of the dedup repair on clean grids -/

/-- C6: on a grid already satisfying I1 and I2 the dedup repair removes
nothing, clears nothing and leaves every session unchanged; consequently
running it twice equals running it once. -/
theorem dedupe_reentrant_on_clean (rows : List Session)
    (h1 : noCellDup rows) (h2 : noTeacherDup rows) :
    deduplicate_grid_sessions rows = { sessions := rows, removed := 0, cleared := 0 }
    ∧ deduplicate_grid_sessions (deduplicate_grid_sessions rows).sessions =
        deduplicate_grid_sessions rows := by
  have hsurv : dedupe_survivors rows = rows := by
    unfold dedupe_survivors
    apply List.filter_eq_self.mpr
    intro s hs
    rw [cellGroup_eq_singleton h1 hs]
    simp
  have hmain : deduplicate_grid_sessions rows =
      { sessions := rows, removed := 0, cleared := 0 } := by
    unfold deduplicate_grid_sessions
    rw [hsurv]
    have hsessions :
        rows.map (fun s => { s with assigned_teacher_id := dedupe_final_teacher rows s }) =
          rows := by
      apply list_map_self
      intro s hs
      rw [dedupe_final_teacher_clean h1 h2 hs]
    simp only [hsessions]
    simp only [DedupResult.mk.injEq, Nat.sub_self, List.length_eq_zero, List.filter_eq_nil_iff]
    refine ⟨trivial, trivial, ?_⟩
    intro s hs
    cases ht : s.assigned_teacher_id with
    | none => simp
    | some t =>
      by_cases h0 : t = 0
      · simp [h0]
      · have hsingle := teacherGroup_eq_singleton h2 hs ht h0
        simp [h0, hsingle]
  refine ⟨hmain, ?_⟩
  rw [hmain]
  exact hmain

/-- A concrete clean grid: two sessions in different cells of the same
hour, assigned to different teachers. -/
def clean_rows : List Session :=
  [{ id := 1, required_skill_id := 1, slot := str "08:00-09:00", assigned_teacher_id := some 4,
     day := str "Monday", year_group := str "Grade 1" },
   { id := 2, required_skill_id := 2, slot := str "08:00-09:00", assigned_teacher_id := some 6,
     day := str "Monday", year_group := str "Grade 2" }]

/-- C6 witness: the re-entrance theorem applied to `clean_rows`. -/
theorem dedupe_reentrant_on_clean_witness :
    (noCellDup clean_rows ∧ noTeacherDup clean_rows)
    ∧ deduplicate_grid_sessions clean_rows =
        { sessions := clean_rows, removed := 0, cleared := 0 } :=
  ⟨⟨by decide, by decide⟩,
    (dedupe_reentrant_on_clean clean_rows (by decide) (by decide)).1⟩

/-! ### Claim C5: canonical-keep and transplant behaviour of the dedup -/

/-- C5: (i) in the id-ordered grid query result, the session kept for a
cell is the one with the lowest id among the cell's members; (ii) on the
spec's concrete scenario — three sessions at (Monday, 08:00-09:00,
Grade 1), only the second (id 2) carrying teacher 5 — exactly one session
remains, it bears the transplanted teacher, and `removed = 2`. -/
theorem dedupe_keeps_lowest_id_and_scenario :
    (∀ rows : List Session, List.Pairwise (fun a b => a.id < b.id) rows →
      ∀ s ∈ dedupe_survivors rows, ∀ x ∈ rows, cellKey x = cellKey s → s.id ≤ x.id)
    ∧ deduplicate_grid_sessions
        [{ id := 1, required_skill_id := 1, slot := str "08:00-09:00", assigned_teacher_id := none,
           day := str "Monday", year_group := str "Grade 1" },
         { id := 2, required_skill_id := 1, slot := str "08:00-09:00", assigned_teacher_id := some 5,
           day := str "Monday", year_group := str "Grade 1" },
         { id := 3, required_skill_id := 1, slot := str "08:00-09:00", assigned_teacher_id := none,
           day := str "Monday", year_group := str "Grade 1" }] =
      { sessions := [{ id := 1, required_skill_id := 1, slot := str "08:00-09:00",
                       assigned_teacher_id := some 5, day := str "Monday",
                       year_group := str "Grade 1" }],
        removed := 2, cleared := 0 } := by
  constructor
  · intro rows hsort s hs x hx hk
    obtain ⟨_, hhead⟩ := mem_dedupe_survivors.mp hs
    have hxg : x ∈ cellGroup rows (cellKey s) := mem_cellGroup.mpr ⟨hx, hk⟩
    have hpair : (cellGroup rows (cellKey s)).Pairwise (fun a b => a.id < b.id) :=
      hsort.filter _
    cases hg : cellGroup rows (cellKey s) with
    | nil => rw [hg] at hhead; cases hhead
    | cons hd tl =>
      rw [hg] at hhead hxg hpair
      have hds : hd = s := by simpa using hhead
      subst hds
      rcases List.mem_cons.mp hxg with rfl | hxtl
      · exact le_refl _
      · exact le_of_lt ((List.pairwise_cons.mp hpair).1 x hxtl)
  · decide

/-- C5 witness: the lowest-identity part of the theorem applied to a
concrete id-ordered grid with a duplicated cell. -/
theorem dedupe_keeps_lowest_id_and_scenario_witness :
    (List.Pairwise (fun a b => a.id < b.id)
      ([{ id := 1, required_skill_id := 1, slot := str "08:00-09:00", assigned_teacher_id := none,
          day := str "Monday", year_group := str "Grade 1" },
        { id := 3, required_skill_id := 1, slot := str "08:00-09:00", assigned_teacher_id := some 5,
          day := str "Monday", year_group := str "Grade 1" }] : List Session)
      ∧ { id := 1, required_skill_id := 1, slot := str "08:00-09:00", assigned_teacher_id := none,
          day := str "Monday", year_group := str "Grade 1" } ∈
        dedupe_survivors
          [{ id := 1, required_skill_id := 1, slot := str "08:00-09:00",
             assigned_teacher_id := none, day := str "Monday", year_group := str "Grade 1" },
           { id := 3, required_skill_id := 1, slot := str "08:00-09:00",
             assigned_teacher_id := some 5, day := str "Monday", year_group := str "Grade 1" }])
    ∧ ({ id := 1, required_skill_id := 1, slot := str "08:00-09:00",
         assigned_teacher_id := none, day := str "Monday",
         year_group := str "Grade 1" } : Session).id ≤
      ({ id := 3, required_skill_id := 1, slot := str "08:00-09:00",
         assigned_teacher_id := some 5, day := str "Monday",
         year_group := str "Grade 1" } : Session).id :=
  ⟨⟨by decide, by decide⟩,
    dedupe_keeps_lowest_id_and_scenario.1
      [{ id := 1, required_skill_id := 1, slot := str "08:00-09:00", assigned_teacher_id := none,
         day := str "Monday", year_group := str "Grade 1" },
       { id := 3, required_skill_id := 1, slot := str "08:00-09:00", assigned_teacher_id := some 5,
         day := str "Monday", year_group := str "Grade 1" }]
      (by decide)
      { id := 1, required_skill_id := 1, slot := str "08:00-09:00", assigned_teacher_id := none,
        day := str "Monday", year_group := str "Grade 1" }
      (by decide)
      { id := 3, required_skill_id := 1, slot := str "08:00-09:00", assigned_teacher_id := some 5,
        day := str "Monday", year_group := str "Grade 1" }
      (by decide) (by decide)⟩

/-! ### Claim C1: the I1/I2 invariants after the repair operations -/

/-- When both passes leave a surviving row with teacher `t` and no
transplant happened, the row already carried `t` and heads its
teacher-slot group. -/
theorem dedupe_final_teacher_some {rows : List Session} (hnt : NoTransplant rows)
    {s : Session} {t : Nat} (hs : s ∈ rows)
    (hhead : (cellGroup rows (cellKey s)).head? = some s)
    (h0 : s.assigned_teacher_id ≠ some 0)
    (h : dedupe_final_teacher rows s = some t) :
    s.assigned_teacher_id = some t ∧ (teacherGroup rows s.day s.slot t).head? = some s := by
  cases ht : s.assigned_teacher_id with
  | none =>
    simp only [dedupe_final_teacher, ht] at h
    rw [hnt s hs hhead ht] at h
    cases h
  | some u =>
    simp only [dedupe_final_teacher, ht] at h
    by_cases hu : u = 0
    · subst hu; exact absurd ht h0
    · rw [if_neg hu] at h
      by_cases hh : (teacherGroup rows s.day s.slot u).head? = some s
      · rw [if_pos hh] at h
        have : u = t := by simpa using h
        subst this
        exact ⟨rfl, hh⟩
      · rw [if_neg hh] at h
        cases h

theorem merged_teacher_singleton (s : Session) :
    merged_teacher [s] = s.assigned_teacher_id := by
  cases hA : s.assigned_teacher_id with
  | none => simp [merged_teacher, List.findSome?_cons, hA]
  | some t => simp [merged_teacher, List.findSome?_cons, hA]

theorem goc_rows_of_head_none {rows : List Session} {day slot year_group : List Char}
    {skill fid : Nat} (hh : (cellGroup rows (day, slot, year_group)).head? = none) :
    (get_or_create_grid_cell_session rows day slot year_group skill fid).rows =
      rows ++ [{ id := fid, required_skill_id := skill, slot := slot,
                 assigned_teacher_id := none, day := day, year_group := year_group }] := by
  unfold get_or_create_grid_cell_session
  simp only [hh]

theorem goc_rows_of_clean_head_some {rows : List Session} {day slot year_group : List Char}
    {skill fid : Nat} {primary : Session} (hc : noCellDup rows)
    (hh : (cellGroup rows (day, slot, year_group)).head? = some primary) :
    (get_or_create_grid_cell_session rows day slot year_group skill fid).rows = rows := by
  have hpm := mem_cellGroup.mp (List.mem_of_mem_head? hh)
  have hsing : cellGroup rows (day, slot, year_group) = [primary] := by
    have h := cellGroup_eq_singleton hc hpm.1
    rw [hpm.2] at h
    exact h
  unfold get_or_create_grid_cell_session
  simp only [hh]
  apply list_filterMap_self
  intro s hs
  by_cases hk : cellKey s = (day, slot, year_group)
  · have hmem : s ∈ cellGroup rows (day, slot, year_group) := mem_cellGroup.mpr ⟨hs, hk⟩
    rw [hsing] at hmem
    have hsp : s = primary := by simpa using hmem
    rw [if_pos hk, if_pos hsp, hsing]
    subst hsp
    rw [merged_teacher_singleton]
  · rw [if_neg hk]

/-- C1 (amended): `dedupeGrid` always restores I1; it restores I2
whenever the cell-merge pass performs no teacher transplant (the
transplant case can violate I2, see the counterexample); and
`getOrCreateCell` preserves I1 and I2 on grids that already satisfy them
— it is not a global repair.  Hypotheses: the rows are a database query
result, so ids are distinct and assigned teacher ids are never the
impossible row id 0. -/
theorem dedupe_and_cell_invariants_amended (rows : List Session)
    (hids : (rows.map Session.id).Nodup)
    (h0 : ∀ s ∈ rows, s.assigned_teacher_id ≠ some 0) :
    noCellDup (deduplicate_grid_sessions rows).sessions
    ∧ (NoTransplant rows → noTeacherDup (deduplicate_grid_sessions rows).sessions)
    ∧ (∀ day slot year_group skill fid, noCellDup rows → noTeacherDup rows →
        noCellDup (get_or_create_grid_cell_session rows day slot year_group skill fid).rows
        ∧ noTeacherDup (get_or_create_grid_cell_session rows day slot year_group skill fid).rows) := by
  have hnd : rows.Nodup := List.Nodup.of_map _ hids
  have hsurvnd : (dedupe_survivors rows).Nodup := (List.filter_sublist rows).nodup hnd
  refine ⟨?_, ?_, ?_⟩
  · -- I1 always holds after the repair.
    show noCellDup ((dedupe_survivors rows).map _)
    unfold noCellDup
    rw [List.pairwise_map]
    refine List.Pairwise.imp_of_mem ?_ hsurvnd
    intro a b ha hb hne hk
    have hka : cellKey a = cellKey b := hk
    obtain ⟨_, hahead⟩ := mem_dedupe_survivors.mp ha
    obtain ⟨_, hbhead⟩ := mem_dedupe_survivors.mp hb
    rw [hka, hbhead] at hahead
    exact hne (by simpa using hahead.symm)
  · -- I2 holds when the cell pass transplants nothing.
    intro hnt
    show noTeacherDup ((dedupe_survivors rows).map _)
    unfold noTeacherDup
    rw [List.pairwise_map]
    refine List.Pairwise.imp_of_mem ?_ hsurvnd
    intro a b ha hb hne hcontra
    obtain ⟨hd, hsl, hteq, hnn⟩ := hcontra
    obtain ⟨ham, hahead⟩ := mem_dedupe_survivors.mp ha
    obtain ⟨hbm, hbhead⟩ := mem_dedupe_survivors.mp hb
    have hda : dedupe_final_teacher rows a ≠ none := hnn
    obtain ⟨t, hft⟩ := Option.ne_none_iff_exists'.mp hda
    have hftb : dedupe_final_teacher rows b = some t := by
      have h : dedupe_final_teacher rows a = dedupe_final_teacher rows b := hteq
      rw [← h]; exact hft
    obtain ⟨_, hathead⟩ := dedupe_final_teacher_some hnt ham hahead (h0 a ham) hft
    obtain ⟨_, hbthead⟩ := dedupe_final_teacher_some hnt hbm hbhead (h0 b hbm) hftb
    have hda2 : a.day = b.day := hd
    have hsl2 : a.slot = b.slot := hsl
    rw [← hda2, ← hsl2] at hbthead
    rw [hathead] at hbthead
    exact hne (by simpa using hbthead)
  · -- getOrCreateCell preserves clean grids.
    intro day slot year_group skill fid hc htd
    cases hh : (cellGroup rows (day, slot, year_group)).head? with
    | none =>
      rw [goc_rows_of_head_none hh]
      have hempty : ∀ x ∈ rows, ¬ cellKey x = (day, slot, year_group) := by
        intro x hx hk
        have : x ∈ cellGroup rows (day, slot, year_group) := mem_cellGroup.mpr ⟨hx, hk⟩
        rw [List.head?_eq_none_iff.mp hh] at this
        cases this
      constructor
      · unfold noCellDup
        rw [List.pairwise_append]
        refine ⟨hc, List.pairwise_singleton _ _, ?_⟩
        intro x hx c hcmem
        rw [List.mem_singleton] at hcmem
        subst hcmem
        exact hempty x hx
      · unfold noTeacherDup
        rw [List.pairwise_append]
        refine ⟨htd, List.pairwise_singleton _ _, ?_⟩
        intro x hx c hcmem
        rw [List.mem_singleton] at hcmem
        subst hcmem
        rintro ⟨_, _, hax, hnnone⟩
        exact hnnone hax
    | some primary =>
      rw [goc_rows_of_clean_head_some hc hh]
      exact ⟨hc, htd⟩

/-- A concrete id-ordered grid: an unassigned session and a duplicate
with teacher 7 in (Monday, 08:00-09:00, Grade 1), plus a Grade 2 session
with teacher 7 in the same hour. -/
def transplant_rows : List Session :=
  [{ id := 1, required_skill_id := 1, slot := str "08:00-09:00", assigned_teacher_id := none,
     day := str "Monday", year_group := str "Grade 1" },
   { id := 2, required_skill_id := 1, slot := str "08:00-09:00", assigned_teacher_id := some 7,
     day := str "Monday", year_group := str "Grade 2" },
   { id := 3, required_skill_id := 1, slot := str "08:00-09:00", assigned_teacher_id := some 7,
     day := str "Monday", year_group := str "Grade 1" }]

/-- C1 witness: a concrete id-ordered grid with distinct ids and no
zero teacher ids, on which the amended invariant theorem applies. -/
theorem dedupe_and_cell_invariants_amended_witness :
    ((transplant_rows.map Session.id).Nodup
      ∧ ∀ s ∈ transplant_rows, s.assigned_teacher_id ≠ some 0)
    ∧ noCellDup (deduplicate_grid_sessions transplant_rows).sessions :=
  ⟨⟨by decide, by decide⟩,
    (dedupe_and_cell_invariants_amended transplant_rows (by decide) (by decide)).1⟩

/-- C1 counterexample: on `transplant_rows` the cell-merge pass
transplants teacher 7 from the discarded duplicate (id 3) onto the kept
session (id 1) at (Monday, 08:00-09:00, Grade 1), while the session
(id 2) at Grade 2 keeps teacher 7 for the same hour: the repaired state
violates the (day, slot, assigned-teacher) uniqueness invariant I2, so
the claim fails as stated. -/
theorem dedupe_transplant_breaks_teacher_invariant :
    ¬ noTeacherDup (deduplicate_grid_sessions transplant_rows).sessions := by
  decide

/-! ### Allocator (`app.py` lines 408-467)

`allocate_sessions` is embedded as a function of the teacher list (as
returned by `Teacher.query.order_by(Teacher.name.asc())`) and the grid
session list (as returned by `grid_sessions_query()`).  Python's stable
`list.sort` is modelled by Mathlib's stable `List.insertionSort`: both
produce the unique stable ordering for the given total preorder. -/

/-- Python code-point comparison of strings (`a <= b`), as used by the
tuple sort key `(assigned_count[teacher.id], teacher.name.lower())`. -/
def strLeB : List Char → List Char → Bool
  | [], _ => true
  | _ :: _, [] => false
  | a :: as, b :: bs =>
    if a.toNat < b.toNat then true
    else if b.toNat < a.toNat then false
    else strLeB as bs

/-- Position of a value in one of the fixed vocabulary lists (the
`day_order`/`slot_order`/`year_order` dictionaries); grid sessions only
carry values present in the lists. -/
def idx_of (x : List Char) : List (List Char) → Nat
  | [] => 0
  | y :: l => if x = y then 0 else idx_of x l + 1

/-- The allocator's session sort key `(day index, slot index, year index)`. -/
def session_sort_key (s : Session) : Nat × Nat × Nat :=
  (idx_of s.day WEEK_DAYS, idx_of s.slot TEACHING_SLOTS, idx_of s.year_group YEAR_GROUPS)

/-- Lexicographic comparison of session sort keys. -/
def session_sort_le (a b : Session) : Prop :=
  (session_sort_key a).1 < (session_sort_key b).1
  ∨ ((session_sort_key a).1 = (session_sort_key b).1
      ∧ ((session_sort_key a).2.1 < (session_sort_key b).2.1
        ∨ ((session_sort_key a).2.1 = (session_sort_key b).2.1
            ∧ (session_sort_key a).2.2 ≤ (session_sort_key b).2.2)))

instance : DecidableRel session_sort_le := fun a b => by
  unfold session_sort_le; infer_instance

/-- Python dict comprehension keyed by id (`{t.id: f(t) for t in ts}`):
the last teacher with a given id wins. -/
def dict_last {α : Type} (teachers : List Teacher) (f : Teacher → α) (dflt : α) : Nat → α :=
  fun i =>
    match (teachers.filter (fun t => t.id = i)).getLast? with
    | some t => f t
    | none => dflt

def teacher_skill_ids (t : Teacher) : List Nat := t.skills.map Skill.id

/-- Candidate filter of the allocator main loop (lines 430-438): right
skill, available for the slot, not already committed in this hour. -/
def alloc_candidates (teachers : List Teacher) (tokens_of : Nat → List (List Char))
    (skills_of : Nat → List Nat) (busy : List (List Char × List Char × Nat))
    (s : Session) : List Teacher :=
  teachers.filter (fun t =>
    s.required_skill_id ∈ skills_of t.id
    ∧ teacher_is_available_for_slot (tokens_of t.id) s.day s.slot = true
    ∧ (s.day, s.slot, t.id) ∉ busy)

/-- The selection preorder (line 451): current load first, then
case-insensitive name. -/
def alloc_le (load : Nat → Nat) (a b : Teacher) : Prop :=
  load a.id < load b.id
  ∨ (load a.id = load b.id ∧ strLeB (lowerChars a.name) (lowerChars b.name) = true)

instance (load : Nat → Nat) : DecidableRel (alloc_le load) := fun a b => by
  unfold alloc_le; infer_instance

/-- `matches.sort(...); selected = matches[0]` (lines 451-452). -/
def alloc_select (load : Nat → Nat) (l : List Teacher) : Option Teacher :=
  (List.insertionSort (alloc_le load) l).head?

structure AllocState where
  busy : List (List Char × List Char × Nat)
  load : Nat → Nat
  assigned : Nat
  unassigned : Nat
  out : List Session

/-- The allocator main loop over the sorted, cleared sessions. -/
def alloc_loop (teachers : List Teacher) (tokens_of : Nat → List (List Char))
    (skills_of : Nat → List Nat) : List Session → AllocState → AllocState
  | [], st => st
  | s :: rest, st =>
    match alloc_select st.load (alloc_candidates teachers tokens_of skills_of st.busy s) with
    | none =>
      alloc_loop teachers tokens_of skills_of rest
        { st with unassigned := st.unassigned + 1, out := st.out ++ [s] }
    | some sel =>
      alloc_loop teachers tokens_of skills_of rest
        { busy := (s.day, s.slot, sel.id) :: st.busy,
          load := fun i => if i = sel.id then st.load i + 1 else st.load i,
          assigned := st.assigned + 1,
          unassigned := st.unassigned,
          out := st.out ++ [{ s with assigned_teacher_id := some sel.id }] }

/-- Line 424: every session's old assignment is cleared before the pass. -/
def clear_assignment (s : Session) : Session := { s with assigned_teacher_id := none }

structure AllocResult where
  sessions : List Session
  assigned : Nat
  unassigned : Nat
deriving DecidableEq

/-- `allocate_sessions` (line 408): sort, precompute per-teacher data,
clear old assignments, run the greedy loop, return the new assignment
state and the (assigned, unassigned) counters. -/
def allocate_sessions (teachers : List Teacher) (sessions : List Session) : AllocResult :=
  let rows := List.insertionSort session_sort_le sessions
  let cleared := rows.map clear_assignment
  let final := alloc_loop teachers
    (dict_last teachers teacher_slot_tokens [])
    (dict_last teachers teacher_skill_ids [])
    cleared
    { busy := [], load := fun _ => 0, assigned := 0, unassigned := 0, out := [] }
  { sessions := final.out, assigned := final.assigned, unassigned := final.unassigned }

/-! ### Properties of the selection preorder -/

theorem strLeB_cons_iff {x y : Char} {xs ys : List Char} :
    strLeB (x :: xs) (y :: ys) = true ↔
      x.toNat < y.toNat ∨ (x.toNat = y.toNat ∧ strLeB xs ys = true) := by
  simp only [strLeB]
  split_ifs with h1 h2
  · simp [h1]
  · simp only [Bool.false_eq_true, false_iff]
    rintro (h | ⟨h, _⟩) <;> omega
  · have hxy : x.toNat = y.toNat := by omega
    simp [hxy, h1]

theorem strLeB_total (a b : List Char) : strLeB a b = true ∨ strLeB b a = true := by
  induction a generalizing b with
  | nil => left; rfl
  | cons x xs ih =>
    cases b with
    | nil => right; rfl
    | cons y ys =>
      rcases Nat.lt_trichotomy x.toNat y.toNat with h | h | h
      · left; exact strLeB_cons_iff.mpr (Or.inl h)
      · rcases ih ys with hr | hr
        · left; exact strLeB_cons_iff.mpr (Or.inr ⟨h, hr⟩)
        · right; exact strLeB_cons_iff.mpr (Or.inr ⟨h.symm, hr⟩)
      · right; exact strLeB_cons_iff.mpr (Or.inl h)

theorem strLeB_trans : ∀ {a b c : List Char},
    strLeB a b = true → strLeB b c = true → strLeB a c = true
  | [], _, _, _, _ => rfl
  | _ :: _, [], _, h1, _ => by cases h1
  | _ :: _, _ :: _, [], _, h2 => by cases h2
  | x :: xs, y :: ys, z :: zs, h1, h2 => by
    rcases strLeB_cons_iff.mp h1 with ha | ⟨ha, ha'⟩ <;>
      rcases strLeB_cons_iff.mp h2 with hb | ⟨hb, hb'⟩
    · exact strLeB_cons_iff.mpr (Or.inl (by omega))
    · exact strLeB_cons_iff.mpr (Or.inl (by omega))
    · exact strLeB_cons_iff.mpr (Or.inl (by omega))
    · exact strLeB_cons_iff.mpr (Or.inr ⟨by omega, strLeB_trans ha' hb'⟩)

theorem strLeB_antisymm : ∀ {a b : List Char},
    strLeB a b = true → strLeB b a = true → a = b
  | [], [], _, _ => rfl
  | [], _ :: _, _, h2 => by cases h2
  | _ :: _, [], h1, _ => by cases h1
  | x :: xs, y :: ys, h1, h2 => by
    rcases strLeB_cons_iff.mp h1 with ha | ⟨ha, ha'⟩ <;>
      rcases strLeB_cons_iff.mp h2 with hb | ⟨hb, hb'⟩
    · omega
    · omega
    · omega
    · have hxy : x = y := Char.ext (UInt32.ext ha)
      rw [hxy, strLeB_antisymm ha' hb']

instance (load : Nat → Nat) : IsTotal Teacher (alloc_le load) := ⟨by
  intro a b
  unfold alloc_le
  rcases Nat.lt_trichotomy (load a.id) (load b.id) with h | h | h
  · exact Or.inl (Or.inl h)
  · rcases strLeB_total (lowerChars a.name) (lowerChars b.name) with hs | hs
    · exact Or.inl (Or.inr ⟨h, hs⟩)
    · exact Or.inr (Or.inr ⟨h.symm, hs⟩)
  · exact Or.inr (Or.inl h)⟩

instance (load : Nat → Nat) : IsTrans Teacher (alloc_le load) := ⟨by
  intro a b c hab hbc
  unfold alloc_le at hab hbc ⊢
  rcases hab with h1 | ⟨h1, hs1⟩ <;> rcases hbc with h2 | ⟨h2, hs2⟩
  · exact Or.inl (by omega)
  · exact Or.inl (by omega)
  · exact Or.inl (by omega)
  · exact Or.inr ⟨by omega, strLeB_trans hs1 hs2⟩⟩

/-- The teacher returned by `alloc_select` belongs to the candidate list
and is minimal there for the (load, lower-cased name) preorder. -/
theorem alloc_select_spec {load : Nat → Nat} {l : List Teacher} {sel : Teacher}
    (h : alloc_select load l = some sel) :
    sel ∈ l ∧ ∀ t ∈ l, alloc_le load sel t := by
  unfold alloc_select at h
  have hperm := List.perm_insertionSort (alloc_le load) l
  have hsorted := List.sorted_insertionSort (alloc_le load) l
  cases hs : List.insertionSort (alloc_le load) l with
  | nil => rw [hs] at h; cases h
  | cons hd tl =>
    rw [hs] at h hperm hsorted
    have hhd : hd = sel := by simpa using h
    subst hhd
    refine ⟨hperm.mem_iff.mp (List.mem_cons_self _ _), ?_⟩
    intro t ht
    rcases List.mem_cons.mp (hperm.mem_iff.mpr ht) with rfl | htl
    · exact (IsTotal.total (r := alloc_le load) t t).elim id id
    · exact (List.sorted_cons.mp hsorted).1 t htl

/-! ### Claim C3: candidate set and selection rule of the allocator -/

/-- C3 counterexample: two distinct teachers that agree on load and on
the case-insensitive name "alice" are both minimal for the claimed
(load, name) rule, and the allocator resolves the tie by list position —
swapping two teachers that any name-ascending query may return in either
order changes the selection.  The rule of the claim is therefore not a
total order and can be ambiguous. -/
theorem duplicate_name_selection_order_dependent :
    (allocate_sessions
      [{ id := 1, name := str "Alice", free_slots := str "Mon 08:00-09:00",
         skills := [{ id := 1, name := str "Math" }] },
       { id := 2, name := str "Alice", free_slots := str "Mon 08:00-09:00",
         skills := [{ id := 1, name := str "Math" }] }]
      [{ id := 10, required_skill_id := 1, slot := str "08:00-09:00", assigned_teacher_id := none,
         day := str "Monday", year_group := str "Grade 1" }]).sessions ≠
    (allocate_sessions
      [{ id := 2, name := str "Alice", free_slots := str "Mon 08:00-09:00",
         skills := [{ id := 1, name := str "Math" }] },
       { id := 1, name := str "Alice", free_slots := str "Mon 08:00-09:00",
         skills := [{ id := 1, name := str "Math" }] }]
      [{ id := 10, required_skill_id := 1, slot := str "08:00-09:00", assigned_teacher_id := none,
         day := str "Monday", year_group := str "Grade 1" }]).sessions := by
  decide

/-- C3 (amended): for every session the candidate set is exactly the
teachers with the required skill, available for the session's (day,
slot) and not yet committed in that hour; the selected teacher is a
candidate that is minimal for (load, case-insensitive name); and any
other candidate at least as small agrees with it on both load and
lower-cased name — so the choice is unique whenever no two candidates
share a load and a case-insensitive name, residual ties being resolved
by position in the teacher list (see the counterexample). -/
theorem allocator_candidate_and_selection_amended
    (teachers : List Teacher) (tokens_of : Nat → List (List Char)) (skills_of : Nat → List Nat)
    (busy : List (List Char × List Char × Nat)) (s : Session) (load : Nat → Nat) (sel : Teacher)
    (hsel : alloc_select load (alloc_candidates teachers tokens_of skills_of busy s) = some sel) :
    (∀ t, t ∈ alloc_candidates teachers tokens_of skills_of busy s ↔
        t ∈ teachers ∧ s.required_skill_id ∈ skills_of t.id
          ∧ teacher_is_available_for_slot (tokens_of t.id) s.day s.slot = true
          ∧ (s.day, s.slot, t.id) ∉ busy)
    ∧ sel ∈ alloc_candidates teachers tokens_of skills_of busy s
    ∧ (∀ t ∈ alloc_candidates teachers tokens_of skills_of busy s, alloc_le load sel t)
    ∧ (∀ t ∈ alloc_candidates teachers tokens_of skills_of busy s, alloc_le load t sel →
        load t.id = load sel.id ∧ lowerChars t.name = lowerChars sel.name) := by
  obtain ⟨hmem, hmin⟩ := alloc_select_spec hsel
  refine ⟨?_, hmem, hmin, ?_⟩
  · intro t
    simp [alloc_candidates, List.mem_filter]
  · intro t ht hle
    have hge := hmin t ht
    unfold alloc_le at hle hge
    rcases hle with h1 | ⟨h1, hs1⟩ <;> rcases hge with h2 | ⟨h2, hs2⟩
    · omega
    · omega
    · omega
    · exact ⟨h1, strLeB_antisymm hs1 hs2⟩

/-- C3 witness: the amended selection theorem applied to a concrete
candidate situation (one Math session, two distinctly named teachers). -/
theorem allocator_candidate_and_selection_amended_witness :
    (alloc_select (fun _ => 0)
        (alloc_candidates
          [{ id := 1, name := str "Bob", free_slots := str "Mon 08:00-09:00",
             skills := [{ id := 1, name := str "Math" }] },
           { id := 2, name := str "Ann", free_slots := str "Mon 08:00-09:00",
             skills := [{ id := 1, name := str "Math" }] }]
          (dict_last
            [{ id := 1, name := str "Bob", free_slots := str "Mon 08:00-09:00",
               skills := [{ id := 1, name := str "Math" }] },
             { id := 2, name := str "Ann", free_slots := str "Mon 08:00-09:00",
               skills := [{ id := 1, name := str "Math" }] }] teacher_slot_tokens [])
          (dict_last
            [{ id := 1, name := str "Bob", free_slots := str "Mon 08:00-09:00",
               skills := [{ id := 1, name := str "Math" }] },
             { id := 2, name := str "Ann", free_slots := str "Mon 08:00-09:00",
               skills := [{ id := 1, name := str "Math" }] }] teacher_skill_ids [])
          []
          { id := 10, required_skill_id := 1, slot := str "08:00-09:00",
            assigned_teacher_id := none, day := str "Monday", year_group := str "Grade 1" }) =
      some { id := 2, name := str "Ann", free_slots := str "Mon 08:00-09:00",
             skills := [{ id := 1, name := str "Math" }] })
    ∧ ∀ t ∈ alloc_candidates
          [{ id := 1, name := str "Bob", free_slots := str "Mon 08:00-09:00",
             skills := [{ id := 1, name := str "Math" }] },
           { id := 2, name := str "Ann", free_slots := str "Mon 08:00-09:00",
             skills := [{ id := 1, name := str "Math" }] }]
          (dict_last
            [{ id := 1, name := str "Bob", free_slots := str "Mon 08:00-09:00",
               skills := [{ id := 1, name := str "Math" }] },
             { id := 2, name := str "Ann", free_slots := str "Mon 08:00-09:00",
               skills := [{ id := 1, name := str "Math" }] }] teacher_slot_tokens [])
          (dict_last
            [{ id := 1, name := str "Bob", free_slots := str "Mon 08:00-09:00",
               skills := [{ id := 1, name := str "Math" }] },
             { id := 2, name := str "Ann", free_slots := str "Mon 08:00-09:00",
               skills := [{ id := 1, name := str "Math" }] }] teacher_skill_ids [])
          []
          { id := 10, required_skill_id := 1, slot := str "08:00-09:00",
            assigned_teacher_id := none, day := str "Monday", year_group := str "Grade 1" },
        alloc_le (fun _ => 0)
          { id := 2, name := str "Ann", free_slots := str "Mon 08:00-09:00",
            skills := [{ id := 1, name := str "Math" }] } t :=
  ⟨by decide,
    (allocator_candidate_and_selection_amended _ _ _ _ _ _ _ (by decide)).2.2.1⟩

/-! ### Claim C4: determinism and non-incrementality of the allocator -/

theorem allocate_sessions_clear_input (teachers : List Teacher) (sessions : List Session) :
    allocate_sessions teachers (sessions.map clear_assignment) =
      allocate_sessions teachers sessions := by
  have hcomm : (List.insertionSort session_sort_le sessions).map clear_assignment =
      List.insertionSort session_sort_le (sessions.map clear_assignment) :=
    List.map_insertionSort _ _ _ _ (fun a _ b _ => Iff.rfl)
  have hcc : (List.insertionSort session_sort_le sessions).map
      (clear_assignment ∘ clear_assignment) =
      (List.insertionSort session_sort_le sessions).map clear_assignment :=
    List.map_congr_left (fun a _ => rfl)
  simp only [allocate_sessions]
  rw [← hcomm, List.map_map, hcc]

/-- C4: the allocator clears all prior assignments before reassigning,
so two runs whose teacher/session inputs agree up to the sessions' prior
assigned-teacher values produce exactly the same result. -/
theorem allocate_deterministic_nonincremental (teachers : List Teacher)
    (s1 s2 : List Session) (h : s1.map clear_assignment = s2.map clear_assignment) :
    allocate_sessions teachers s1 = allocate_sessions teachers s2 := by
  rw [← allocate_sessions_clear_input teachers s1, ← allocate_sessions_clear_input teachers s2, h]

/-- C4 witness: two concrete inputs differing only in a prior
assignment give identical allocator output. -/
theorem allocate_deterministic_nonincremental_witness :
    ([{ id := 10, required_skill_id := 1, slot := str "08:00-09:00",
        assigned_teacher_id := some 9, day := str "Monday", year_group := str "Grade 1" }].map
        clear_assignment =
      [{ id := 10, required_skill_id := 1, slot := str "08:00-09:00",
         assigned_teacher_id := none, day := str "Monday", year_group := str "Grade 1" }].map
        clear_assignment)
    ∧ allocate_sessions
        [{ id := 1, name := str "Ann", free_slots := str "Mon 08:00-09:00",
           skills := [{ id := 1, name := str "Math" }] }]
        [{ id := 10, required_skill_id := 1, slot := str "08:00-09:00",
           assigned_teacher_id := some 9, day := str "Monday", year_group := str "Grade 1" }] =
      allocate_sessions
        [{ id := 1, name := str "Ann", free_slots := str "Mon 08:00-09:00",
           skills := [{ id := 1, name := str "Math" }] }]
        [{ id := 10, required_skill_id := 1, slot := str "08:00-09:00",
           assigned_teacher_id := none, day := str "Monday", year_group := str "Grade 1" }] :=
  ⟨by decide, allocate_deterministic_nonincremental _ _ _ (by decide)⟩

/-! ### Claim C7: the allocator never double-books a teacher -/

theorem alloc_loop_noTeacherDup (teachers : List Teacher) (tokens_of : Nat → List (List Char))
    (skills_of : Nat → List Nat) :
    ∀ (pending : List Session) (st : AllocState),
      (∀ s ∈ pending, s.assigned_teacher_id = none) →
      (∀ a ∈ st.out, ∀ t, a.assigned_teacher_id = some t → (a.day, a.slot, t) ∈ st.busy) →
      noTeacherDup st.out →
      noTeacherDup (alloc_loop teachers tokens_of skills_of pending st).out := by
  intro pending
  induction pending with
  | nil => intro st _ _ h3; exact h3
  | cons s rest ih =>
    intro st hp hbusy hnd
    rw [alloc_loop]
    cases hsel : alloc_select st.load (alloc_candidates teachers tokens_of skills_of st.busy s) with
    | none =>
      apply ih
      · exact fun x hx => hp x (List.mem_cons_of_mem s hx)
      · intro a ha t hat
        rcases List.mem_append.mp ha with ha' | ha'
        · exact hbusy a ha' t hat
        · rw [List.mem_singleton] at ha'
          rw [ha', hp s (List.mem_cons_self s rest)] at hat
          cases hat
      · unfold noTeacherDup
        rw [List.pairwise_append]
        refine ⟨hnd, List.pairwise_singleton _ _, ?_⟩
        intro a _ c hc
        rw [List.mem_singleton] at hc
        rw [hc]
        rintro ⟨_, _, he, hn⟩
        rw [hp s (List.mem_cons_self s rest)] at he
        exact hn he
    | some sel =>
      have hselc := (alloc_select_spec hsel).1
      have hnobusy : (s.day, s.slot, sel.id) ∉ st.busy := by
        have hcond := (List.mem_filter.mp hselc).2
        simp only [decide_eq_true_eq] at hcond
        exact hcond.2.2
      apply ih
      · exact fun x hx => hp x (List.mem_cons_of_mem s hx)
      · intro a ha t hat
        rcases List.mem_append.mp ha with ha' | ha'
        · exact List.mem_cons_of_mem _ (hbusy a ha' t hat)
        · rw [List.mem_singleton] at ha'
          subst ha'
          have hts : sel.id = t := by simpa using hat
          rw [← hts]
          exact List.mem_cons_self _ _
      · unfold noTeacherDup
        rw [List.pairwise_append]
        refine ⟨hnd, List.pairwise_singleton _ _, ?_⟩
        intro a ha c hc
        rw [List.mem_singleton] at hc
        subst hc
        rintro ⟨hd, hsl, he, hn⟩
        have he' : a.assigned_teacher_id = some sel.id := he
        have := hbusy a ha sel.id he'
        rw [hd, hsl] at this
        exact hnobusy this

/-- C7: within one allocator run no teacher is committed to two
sessions in the same (day, slot): the per-hour committed set excludes
already-committed teachers from candidacy, so the produced assignment
always satisfies invariant I2. -/
theorem allocate_no_double_booking (teachers : List Teacher) (sessions : List Session) :
    noTeacherDup (allocate_sessions teachers sessions).sessions := by
  unfold allocate_sessions
  apply alloc_loop_noTeacherDup
  · intro s hs
    obtain ⟨x, _, rfl⟩ := List.mem_map.mp hs
    rfl
  · intro a ha
    cases ha
  · exact List.Pairwise.nil

/-! ### Claim C8: degenerate inputs are not errors -/

theorem alloc_loop_counts (teachers : List Teacher) (tokens_of : Nat → List (List Char))
    (skills_of : Nat → List Nat) :
    ∀ (pending : List Session) (st : AllocState),
      (alloc_loop teachers tokens_of skills_of pending st).assigned
        + (alloc_loop teachers tokens_of skills_of pending st).unassigned
      = st.assigned + st.unassigned + pending.length := by
  intro pending
  induction pending with
  | nil => intro st; rfl
  | cons s rest ih =>
    intro st
    rw [alloc_loop]
    cases hsel : alloc_select st.load (alloc_candidates teachers tokens_of skills_of st.busy s) with
    | none =>
      rw [ih]
      simp only [List.length_cons]
      omega
    | some sel =>
      rw [ih]
      simp only [List.length_cons]
      omega

theorem alloc_loop_no_teachers (tokens_of : Nat → List (List Char))
    (skills_of : Nat → List Nat) :
    ∀ (pending : List Session) (st : AllocState),
      (alloc_loop [] tokens_of skills_of pending st).assigned = st.assigned
      ∧ (alloc_loop [] tokens_of skills_of pending st).unassigned
          = st.unassigned + pending.length := by
  intro pending
  induction pending with
  | nil => intro st; exact ⟨rfl, rfl⟩
  | cons s rest ih =>
    intro st
    rw [alloc_loop]
    have hnone : alloc_select st.load (alloc_candidates [] tokens_of skills_of st.busy s) =
        none := rfl
    rw [hnone]
    obtain ⟨h1, h2⟩ := ih _
    refine ⟨h1, ?_⟩
    rw [h2]
    simp only [List.length_cons]
    omega

/-- C8: the allocator raises no error on degenerate input: with no
teachers it yields (0, sessionCount), with no sessions it yields (0, 0),
and in general every session is either assigned or counted unassigned
(no session is dropped or treated as a failure). -/
theorem allocate_degenerate_counts :
    (∀ sessions : List Session,
      (allocate_sessions [] sessions).assigned = 0
      ∧ (allocate_sessions [] sessions).unassigned = sessions.length)
    ∧ (∀ teachers : List Teacher,
      (allocate_sessions teachers []).assigned = 0
      ∧ (allocate_sessions teachers []).unassigned = 0)
    ∧ ∀ (teachers : List Teacher) (sessions : List Session),
      (allocate_sessions teachers sessions).assigned
        + (allocate_sessions teachers sessions).unassigned = sessions.length := by
  refine ⟨?_, ?_, ?_⟩
  · intro sessions
    simp only [allocate_sessions]
    obtain ⟨h1, h2⟩ := alloc_loop_no_teachers
      (dict_last [] teacher_slot_tokens []) (dict_last [] teacher_skill_ids [])
      ((List.insertionSort session_sort_le sessions).map clear_assignment)
      { busy := [], load := fun _ => 0, assigned := 0, unassigned := 0, out := [] }
    refine ⟨h1, ?_⟩
    rw [h2, List.length_map, List.length_insertionSort]
    simp
  · intro teachers
    exact ⟨rfl, rfl⟩
  · intro teachers sessions
    simp only [allocate_sessions]
    rw [alloc_loop_counts]
    simp [List.length_insertionSort]

/-! ### Claim C2 -/

/-- C2 counterexample: the claim also expects the stored token
`"Mon 9:00-10:00"` (short start combined with the full range) to match
(Monday, 09:00-10:00), but `slot_aliases` never generates that spelling,
so `teacher_is_available_for_slot` rejects it. -/
theorem alias_short_start_full_range_missing :
    ¬ teacher_is_available_for_slot
        (teacher_slot_tokens { id := 1, name := str "T", free_slots := str "Mon 9:00-10:00", skills := [] })
        (str "Monday") (str "09:00-10:00") = true := by
  decide

/-- C2 (amended): for day = Monday, slot = "09:00-10:00" the stored
tokens `"Mon 09:00-10:00"` and `"monday 9:00"` are accepted, but
`"Mon 9:00-10:00"` is not: the leading-zero-stripped variant exists only
for the bare start time, not for the full slot range. -/
theorem availability_alias_equivalence_amended :
    teacher_is_available_for_slot
        (teacher_slot_tokens { id := 1, name := str "T", free_slots := str "Mon 09:00-10:00", skills := [] })
        (str "Monday") (str "09:00-10:00") = true
    ∧ teacher_is_available_for_slot
        (teacher_slot_tokens { id := 1, name := str "T", free_slots := str "monday 9:00", skills := [] })
        (str "Monday") (str "09:00-10:00") = true
    ∧ teacher_is_available_for_slot
        (teacher_slot_tokens { id := 1, name := str "T", free_slots := str "Mon 9:00-10:00", skills := [] })
        (str "Monday") (str "09:00-10:00") = false := by
  refine ⟨by decide, by decide, by decide⟩

/-! ### Grid view builder (`app.py` lines 470-540) -/

/-- The sessions admitted to the schedule: grid vocabulary only. -/
def schedule_sessions (sessions : List Session) : List Session :=
  sessions.filter (fun s =>
    s.day ∈ WEEK_DAYS ∧ s.slot ∈ TEACHING_SLOTS ∧ s.year_group ∈ YEAR_GROUPS)

/-- `session_lookup` dict (line 476): for duplicate cells the
last-inserted session wins, as in a Python dict comprehension. -/
def session_lookup (ss : List Session) (day slot year_group : List Char) : Option Session :=
  (ss.filter (fun s => cellKey s = (day, slot, year_group))).getLast?

/-- `busy_at_slot` (lines 478-481): teacher ids with a truthy
assignment among the schedule sessions of (day, slot). -/
def busy_at_slot (ss : List Session) (day slot : List Char) : List Nat :=
  (ss.filter (fun s => s.day = day ∧ s.slot = slot ∧ truthy s.assigned_teacher_id = true)).filterMap
    (fun s => s.assigned_teacher_id)

structure TeacherOption where
  id : Nat
  name : List Char
  skills_label : List Char
  selected : Bool
  available : Bool
  busy : Bool
  has_skill : Bool
  selectable : Bool
deriving DecidableEq

structure GridCell where
  year_group : List Char
  day : List Char
  slot : List Char
  session_id : Option Nat
  required_skill_id : Option Nat
  assigned_teacher_id : Option Nat
  assigned_teacher_name : Option (List Char)
  teacher_options : List TeacherOption
deriving DecidableEq

structure ScheduleRow where
  is_lunch : Bool
  slot : List Char
  cells : List GridCell
deriving DecidableEq

/-- The `skills` display string of a teacher option (line 514). -/
def skills_display (t : Teacher) : List Char :=
  let j := joinSep (str ", ") (t.skills.map Skill.name)
  if j = [] then str "No skills" else j

/-- One entry of `teacher_options` (lines 502-521).  `has_skill` follows
the Python truthiness test `if required_skill_id:`. -/
def build_teacher_option (tokens_of : Nat → List (List Char)) (skills_of : Nat → List Nat)
    (ss : List Session) (day slot : List Char) (current_tid required_sid : Option Nat)
    (t : Teacher) : TeacherOption :=
  let available := teacher_is_available_for_slot (tokens_of t.id) day slot
  let busy := decide (t.id ∈ busy_at_slot ss day slot) && decide (some t.id ≠ current_tid)
  let has_skill :=
    match required_sid with
    | some k => if k = 0 then true else decide (k ∈ skills_of t.id)
    | none => true
  { id := t.id, name := t.name, skills_label := skills_display t,
    selected := decide (some t.id = current_tid),
    available := available, busy := busy, has_skill := has_skill,
    selectable := available && !busy && has_skill }

/-- One grid cell (lines 496-534).  The assigned teacher's display name
is resolved through the teacher table, as the ORM relationship does. -/
def build_cell (teachers : List Teacher) (tokens_of : Nat → List (List Char))
    (skills_of : Nat → List Nat) (ss : List Session)
    (day slot year_group : List Char) : GridCell :=
  let existing := session_lookup ss day slot year_group
  let current_tid := existing.bind (fun s => s.assigned_teacher_id)
  let required_sid := existing.map (fun s => s.required_skill_id)
  { year_group := year_group, day := day, slot := slot,
    session_id := existing.map (fun s => s.id),
    required_skill_id := required_sid,
    assigned_teacher_id := current_tid,
    assigned_teacher_name :=
      current_tid.bind (fun tid =>
        ((teachers.filter (fun t => t.id = tid)).head?).map (fun t => t.name)),
    teacher_options :=
      teachers.map (build_teacher_option tokens_of skills_of ss day slot current_tid required_sid) }

/-- One day's rows (lines 488-536): a fixed row per `TIME_ROWS` entry,
lunch rows carrying no cells. -/
def build_day_rows (teachers : List Teacher) (tokens_of : Nat → List (List Char))
    (skills_of : Nat → List Nat) (ss : List Session) (day : List Char) : List ScheduleRow :=
  TIME_ROWS.map (fun row =>
    if row.2 then { is_lunch := true, slot := row.1, cells := [] }
    else
      { is_lunch := false, slot := row.1,
        cells :=
          YEAR_GROUPS.map (fun yg => build_cell teachers tokens_of skills_of ss day row.1 yg) })

/-- `build_schedule` (line 470): the day-keyed dict, as an association
list over the five week days. -/
def build_schedule (teachers : List Teacher) (sessions : List Session) :
    List (List Char × List ScheduleRow) :=
  let ss := schedule_sessions sessions
  let tokens_of := dict_last teachers teacher_slot_tokens []
  let skills_of := dict_last teachers teacher_skill_ids []
  WEEK_DAYS.map (fun day => (day, build_day_rows teachers tokens_of skills_of ss day))

/-- The claim's selectability condition, stated from the spec's words:
available for the (day, slot), AND NOT busy elsewhere — assigned to a
different session occupying that (day, slot) in the snapshot, the cell's
own assigned teacher never counting as busy for its own cell — AND
holding the cell's required skill (vacuously when the cell has none). -/
def spec_selectable (sessions : List Session) (day slot year_group : List Char)
    (t : Teacher) : Prop :=
  teacher_is_available_for_slot (teacher_slot_tokens t) day slot = true
  ∧ ¬ ((∃ s' ∈ schedule_sessions sessions,
          some s' ≠ session_lookup (schedule_sessions sessions) day slot year_group
          ∧ s'.day = day ∧ s'.slot = slot ∧ s'.assigned_teacher_id = some t.id)
        ∧ (session_lookup (schedule_sessions sessions) day slot year_group).bind
            (fun s => s.assigned_teacher_id) ≠ some t.id)
  ∧ ∀ k, (session_lookup (schedule_sessions sessions) day slot year_group).map
        (fun s => s.required_skill_id) = some k → k ∈ teacher_skill_ids t

/-! ### Claim C9: selectability reported by the grid view builder -/

theorem teacher_filter_id_singleton {teachers : List Teacher}
    (hids : (teachers.map Teacher.id).Nodup) {t : Teacher} (ht : t ∈ teachers) :
    teachers.filter (fun x => x.id = t.id) = [t] := by
  have hpw : teachers.Pairwise (fun a b => a.id ≠ b.id) := List.pairwise_map.mp hids
  clear hids
  induction teachers with
  | nil => cases ht
  | cons a l ih =>
    rw [List.pairwise_cons] at hpw
    rcases List.mem_cons.mp ht with rfl | ht'
    · rw [List.filter_cons, if_pos (by simp)]
      have : l.filter (fun x => decide (x.id = t.id)) = [] := by
        rw [List.filter_eq_nil_iff]
        intro b hb
        simpa using fun hk => (hpw.1 b hb) hk.symm
      rw [this]
    · rw [List.filter_cons, if_neg (by simpa using fun hk => (hpw.1 t ht') hk)]
      exact ih ht' hpw.2

theorem dict_last_self {α : Type} {teachers : List Teacher}
    (hids : (teachers.map Teacher.id).Nodup) {t : Teacher} (ht : t ∈ teachers)
    (f : Teacher → α) (d : α) : dict_last teachers f d t.id = f t := by
  unfold dict_last
  rw [teacher_filter_id_singleton hids ht]
  rfl

theorem teacher_id_inj {teachers : List Teacher}
    (hids : (teachers.map Teacher.id).Nodup) {t t' : Teacher} (ht : t ∈ teachers)
    (ht' : t' ∈ teachers) (h : t'.id = t.id) : t' = t := by
  have : t' ∈ teachers.filter (fun x => x.id = t.id) := List.mem_filter.mpr ⟨ht', by simpa⟩
  rw [teacher_filter_id_singleton hids ht] at this
  simpa using this

theorem mem_busy_at_slot {ss : List Session} {day slot : List Char} {tid : Nat} :
    tid ∈ busy_at_slot ss day slot ↔
      ∃ s ∈ ss, (s.day = day ∧ s.slot = slot ∧ truthy s.assigned_teacher_id = true)
        ∧ s.assigned_teacher_id = some tid := by
  simp [busy_at_slot, List.mem_filterMap, List.mem_filter, and_assoc]

theorem session_lookup_mem {ss : List Session} {day slot year_group : List Char} {s : Session}
    (h : session_lookup ss day slot year_group = some s) :
    s ∈ ss ∧ cellKey s = (day, slot, year_group) := by
  have := List.mem_of_mem_getLast? h
  simpa [List.mem_filter] using this

/-- The selectability flag of one teacher option, computed exactly as
`build_schedule` computes it, agrees with the spec's selectability
condition. -/
theorem build_teacher_option_selectable_iff
    (teachers : List Teacher) (sessions : List Session)
    (hids : (teachers.map Teacher.id).Nodup)
    (h0 : ∀ s ∈ sessions, s.assigned_teacher_id ≠ some 0)
    (h1 : ∀ s ∈ sessions, s.required_skill_id ≠ 0)
    (day slot year_group : List Char) {t : Teacher} (htm : t ∈ teachers) :
    (build_teacher_option (dict_last teachers teacher_slot_tokens [])
        (dict_last teachers teacher_skill_ids [])
        (schedule_sessions sessions) day slot
        ((session_lookup (schedule_sessions sessions) day slot year_group).bind
          (fun s => s.assigned_teacher_id))
        ((session_lookup (schedule_sessions sessions) day slot year_group).map
          (fun s => s.required_skill_id))
        t).selectable = true
      ↔ spec_selectable sessions day slot year_group t := by
  have hss : ∀ s ∈ schedule_sessions sessions, s ∈ sessions :=
    fun s hs => (List.mem_filter.mp hs).1
  have htok := dict_last_self hids htm teacher_slot_tokens ([] : List (List Char))
  have hskf := dict_last_self hids htm teacher_skill_ids ([] : List Nat)
  simp only [build_teacher_option]
  rw [Bool.and_eq_true, Bool.and_eq_true]
  unfold spec_selectable
  constructor
  · rintro ⟨⟨hav, hnb⟩, hskill⟩
    refine ⟨?_, ?_, ?_⟩
    · rw [← htok]; exact hav
    · rintro ⟨⟨s', hs'm, hdiff, hsday, hsslot, hassign⟩, hcur⟩
      rw [Bool.not_eq_true', Bool.and_eq_false_iff] at hnb
      have htid0 : t.id ≠ 0 := by
        intro h
        exact h0 s' (hss s' hs'm) (by rw [hassign, h])
      have hmem : t.id ∈ busy_at_slot (schedule_sessions sessions) day slot :=
        mem_busy_at_slot.mpr ⟨s', hs'm, ⟨hsday, hsslot, by simp [truthy, hassign, htid0]⟩, hassign⟩
      rcases hnb with hnb | hnb
      · rw [decide_eq_false_iff_not] at hnb
        exact hnb hmem
      · rw [decide_eq_false_iff_not, not_not] at hnb
        exact hcur hnb.symm
    · intro k hk
      cases hlook : session_lookup (schedule_sessions sessions) day slot year_group with
      | none => rw [hlook] at hk; cases hk
      | some sess =>
        rw [hlook] at hk hskill
        have hkeq : sess.required_skill_id = k := by simpa using hk
        have hk0 : sess.required_skill_id ≠ 0 :=
          h1 sess (hss sess (session_lookup_mem hlook).1)
        rw [← hkeq]
        simp only [Option.map_some'] at hskill
        rw [if_neg hk0, decide_eq_true_eq, hskf] at hskill
        exact hskill
  · rintro ⟨hav, hnbusy, hskill⟩
    refine ⟨⟨?_, ?_⟩, ?_⟩
    · rw [htok]; exact hav
    · rw [Bool.not_eq_true', Bool.and_eq_false_iff]
      by_cases hmem : t.id ∈ busy_at_slot (schedule_sessions sessions) day slot
      · right
        rw [decide_eq_false_iff_not, not_not]
        by_contra hne
        obtain ⟨s', hs'm, ⟨hsday, hsslot, _⟩, hassign⟩ := mem_busy_at_slot.mp hmem
        apply hnbusy
        refine ⟨⟨s', hs'm, ?_, hsday, hsslot, hassign⟩, fun h => hne h.symm⟩
        intro heq
        apply hne
        rw [← heq]
        simp [hassign]
      · left
        rw [decide_eq_false_iff_not]
        exact hmem
    · cases hlook : session_lookup (schedule_sessions sessions) day slot year_group with
      | none => simp
      | some sess =>
        rw [hlook] at hskill
        simp only [Option.map_some']
        have hk0 : sess.required_skill_id ≠ 0 :=
          h1 sess (hss sess (session_lookup_mem hlook).1)
        rw [if_neg hk0, decide_eq_true_eq, hskf]
        exact hskill sess.required_skill_id rfl

/-- C9: for every teaching cell of the built schedule and every teacher
option in it, the reported `selectable` flag holds iff the corresponding
teacher is available for the cell's (day, slot), is not assigned to a
different session occupying that (day, slot) — the cell's own assigned
teacher never counts as busy elsewhere — and holds the cell's required
skill (vacuously when the cell has no skill yet). -/
theorem build_schedule_selectable_iff
    (teachers : List Teacher) (sessions : List Session)
    (hids : (teachers.map Teacher.id).Nodup)
    (h0 : ∀ s ∈ sessions, s.assigned_teacher_id ≠ some 0)
    (h1 : ∀ s ∈ sessions, s.required_skill_id ≠ 0)
    {day : List Char} {rows : List ScheduleRow} {row : ScheduleRow} {cell : GridCell}
    {opt : TeacherOption}
    (hd : (day, rows) ∈ build_schedule teachers sessions)
    (hr : row ∈ rows) (hl : row.is_lunch = false) (hc : cell ∈ row.cells)
    (ho : opt ∈ cell.teacher_options) :
    ∀ t ∈ teachers, opt.id = t.id →
      (opt.selectable = true ↔ spec_selectable sessions cell.day cell.slot cell.year_group t) := by
  intro t htm hoptid
  simp only [build_schedule] at hd
  obtain ⟨d, hdm, heqd⟩ := List.mem_map.mp hd
  injection heqd with heq1 heq2
  subst heq1
  subst heq2
  simp only [build_day_rows] at hr
  obtain ⟨tr, htr, heqr⟩ := List.mem_map.mp hr
  by_cases hlr : tr.2
  · rw [if_pos hlr] at heqr
    rw [← heqr] at hl
    cases hl
  · rw [if_neg hlr] at heqr
    subst heqr
    obtain ⟨yg, hyg, heqc⟩ := List.mem_map.mp hc
    subst heqc
    obtain ⟨t', ht'm, heqo⟩ := List.mem_map.mp ho
    subst heqo
    have ht't : t' = t := teacher_id_inj hids htm ht'm hoptid
    rw [ht't]
    exact build_teacher_option_selectable_iff teachers sessions hids h0 h1 d tr.1 yg htm

/-- Concrete view-builder input: one teacher free on Monday 08:00-09:00
holding skill 1, one session at (Monday, 08:00-09:00, Grade 1). -/
def c9_ann : Teacher :=
  { id := 1, name := str "Ann", free_slots := str "Mon 08:00-09:00",
    skills := [{ id := 1, name := str "Math" }] }

def c9_teachers : List Teacher := [c9_ann]

def c9_sessions : List Session :=
  [{ id := 10, required_skill_id := 1, slot := str "08:00-09:00", assigned_teacher_id := some 1,
     day := str "Monday", year_group := str "Grade 1" }]

def c9_tokens : Nat → List (List Char) := dict_last c9_teachers teacher_slot_tokens []

def c9_skills : Nat → List Nat := dict_last c9_teachers teacher_skill_ids []

def c9_ss : List Session := schedule_sessions c9_sessions

def c9_row : ScheduleRow :=
  { is_lunch := false, slot := str "08:00-09:00",
    cells := YEAR_GROUPS.map (fun yg =>
      build_cell c9_teachers c9_tokens c9_skills c9_ss (str "Monday") (str "08:00-09:00") yg) }

def c9_cell : GridCell :=
  build_cell c9_teachers c9_tokens c9_skills c9_ss (str "Monday") (str "08:00-09:00")
    (str "Grade 1")

def c9_opt : TeacherOption :=
  build_teacher_option c9_tokens c9_skills c9_ss (str "Monday") (str "08:00-09:00")
    c9_cell.assigned_teacher_id c9_cell.required_skill_id c9_ann

/-- C9 witness: the selectability theorem applied to the concrete
schedule built from `c9_teachers`/`c9_sessions`, at the Monday
08:00-09:00 Grade 1 cell and teacher Ann. -/
theorem build_schedule_selectable_iff_witness :
    ((c9_teachers.map Teacher.id).Nodup
      ∧ (∀ s ∈ c9_sessions, s.assigned_teacher_id ≠ some 0)
      ∧ (∀ s ∈ c9_sessions, s.required_skill_id ≠ 0)
      ∧ (str "Monday", build_day_rows c9_teachers c9_tokens c9_skills c9_ss (str "Monday"))
          ∈ build_schedule c9_teachers c9_sessions
      ∧ c9_row ∈ build_day_rows c9_teachers c9_tokens c9_skills c9_ss (str "Monday")
      ∧ c9_row.is_lunch = false
      ∧ c9_cell ∈ c9_row.cells
      ∧ c9_opt ∈ c9_cell.teacher_options
      ∧ c9_ann ∈ c9_teachers
      ∧ c9_opt.id = c9_ann.id)
    ∧ (c9_opt.selectable = true ↔
        spec_selectable c9_sessions c9_cell.day c9_cell.slot c9_cell.year_group c9_ann) := by
  have hd : (str "Monday", build_day_rows c9_teachers c9_tokens c9_skills c9_ss (str "Monday"))
      ∈ build_schedule c9_teachers c9_sessions := by decide
  have hr : c9_row ∈ build_day_rows c9_teachers c9_tokens c9_skills c9_ss (str "Monday") := by
    decide
  have hc : c9_cell ∈ c9_row.cells := by decide
  have ho : c9_opt ∈ c9_cell.teacher_options := by decide
  exact ⟨⟨by decide, by decide, by decide, hd, hr, by decide, hc, ho, by decide, by decide⟩,
    build_schedule_selectable_iff c9_teachers c9_sessions (by decide) (by decide) (by decide)
      hd hr (by decide) hc ho c9_ann (by decide) (by decide)⟩

/-! ### Teacher lifecycle: free-slot defaulting (`app.py` lines 669-680,
796-800, 824-828) -/

/-- Free-slot value stored by `create_teacher` (lines 798-800): the form
value is stripped; an empty result falls back to the full default set. -/
def create_teacher_free_slots (raw : List Char) : List Char :=
  let trimmed := trimChars raw
  if trimmed = [] then default_free_slots else normalize_slot_csv trimmed

/-- Free-slot value stored by `import_teachers_csv` (lines 669, 677):
the row value is split into slots; an empty list falls back to the full
default set. -/
def import_teacher_free_slots (raw : List Char) : List Char :=
  let slots := split_multi_value_field raw
  if slots = [] then default_free_slots else joinSep (str ", ") slots

/-- Free-slot value stored by `update_teacher` (lines 824-828): a
missing or blank form value KEEPS the teacher's existing declaration,
falling back to the default set only when the existing value is empty. -/
def update_teacher_free_slots (existing : List Char) (raw : Option (List Char)) : List Char :=
  match raw with
  | none => if existing = [] then default_free_slots else existing
  | some r =>
    if trimChars r = [] then (if existing = [] then default_free_slots else existing)
    else normalize_slot_csv r

/-! ### Claim C10 -/

/-- C10 counterexample: updating a teacher whose stored declaration is
`"Mon 08:00-09:00"` with an empty free-time field keeps the existing
declaration instead of defaulting to the full set, and the teacher is
then NOT available on Tuesday — contradicting the claim's "or updated
with an empty field" branch. -/
theorem update_empty_keeps_existing_slots :
    update_teacher_free_slots (str "Mon 08:00-09:00") (some (str "")) = str "Mon 08:00-09:00"
    ∧ update_teacher_free_slots (str "Mon 08:00-09:00") (some (str "")) ≠ default_free_slots
    ∧ teacher_is_available_for_slot
        ((split_multi_value_field
          (update_teacher_free_slots (str "Mon 08:00-09:00") (some (str "")))).map normalize)
        (str "Tuesday") (str "08:00-09:00") = false := by
  refine ⟨by decide, by decide, by decide⟩

/-- C10 (amended): a blank free-time declaration means fully available
on creation: `create_teacher` and the CSV import store the full default
token set when given an empty or whitespace-only field, and that default
makes the teacher available at every (weekday, teaching slot) of the
grid; `update_teacher`, however, keeps the existing declaration on a
blank field and defaults only when the stored declaration is itself
empty. -/
theorem default_free_slots_amended :
    (∀ raw : List Char, trimChars raw = [] →
      create_teacher_free_slots raw = default_free_slots)
    ∧ (∀ raw : List Char, trimChars raw = [] →
      import_teacher_free_slots raw = default_free_slots)
    ∧ (∀ (existing : List Char) (raw : Option (List Char)),
        (raw = none ∨ ∃ r, raw = some r ∧ trimChars r = []) →
        update_teacher_free_slots existing raw =
          if existing = [] then default_free_slots else existing)
    ∧ (∀ t : Teacher, t.free_slots = default_free_slots →
        ∀ day ∈ WEEK_DAYS, ∀ slot ∈ TEACHING_SLOTS,
          teacher_is_available_for_slot (teacher_slot_tokens t) day slot = true) := by
  have havail : ∀ day ∈ WEEK_DAYS, ∀ slot ∈ TEACHING_SLOTS,
      teacher_is_available_for_slot ((split_multi_value_field default_free_slots).map normalize)
        day slot = true := by
    set_option maxRecDepth 8192 in decide
  refine ⟨?_, ?_, ?_, ?_⟩
  · intro raw h
    simp [create_teacher_free_slots, h]
  · intro raw h
    simp [import_teacher_free_slots, split_multi_value_field, h]
  · intro existing raw h
    rcases h with rfl | ⟨r, rfl, hr⟩
    · rfl
    · simp [update_teacher_free_slots, hr]
  · intro t ht day hday slot hslot
    unfold teacher_slot_tokens
    rw [ht]
    exact havail day hday slot hslot

/-- C10 witness: the amended theorem applied to a whitespace-only
creation input and to the default declaration at (Monday, 08:00-09:00). -/
theorem default_free_slots_amended_witness :
    (trimChars (str "  ") = [] ∧ create_teacher_free_slots (str "  ") = default_free_slots)
    ∧ teacher_is_available_for_slot
        (teacher_slot_tokens
          { id := 1, name := str "Ann", free_slots := default_free_slots, skills := [] })
        (str "Monday") (str "08:00-09:00") = true :=
  ⟨⟨by decide, default_free_slots_amended.1 (str "  ") (by decide)⟩,
    default_free_slots_amended.2.2.2
      { id := 1, name := str "Ann", free_slots := default_free_slots, skills := [] }
      rfl (str "Monday") (by decide) (str "08:00-09:00") (by decide)⟩

end TimetableApp
